import Mathlib

/-!
# Game loop of the VR flappy-bird demo (`src/src/App.jsx`)

A shallow embedding of the per-frame logic of the `Game` component: the
configuration table `CFG`, `rand`, `resetGame`, `flap`, `updateGesture`
(with its inner `step`) and the `useFrame` callback.

Modelling conventions.

* JavaScript numbers are embedded as rationals with exact arithmetic.  A hand
  height that fails `Number.isFinite` (the `NaN` of an untracked grip) is
  `none`; finite heights are `some y`.
* `aliveRef.current` and the React state `alive` are always written together
  and are one field; the React state `score` is a natural number, and
  `setScore(s => s + 1)` is `score + 1`.
* `Math.random()` is an oracle `rnd : Nat → ℚ`: `rnd i` is the draw used for
  pool index `i` by the operation at hand (there is at most one draw per index
  and per operation).
* `pipesRef.current[i]` (the mounted mesh of pool index `i`) is the oracle
  `mesh : Nat → Bool` of a frame; the loop skips an index whose mesh is absent,
  as the source does.  Writes to mesh and world positions are presentation
  only and are not part of the state.
-/

namespace FlappyVR

/-! ## Configuration (`CFG`, lines 8-30) -/

namespace CFG

def gravity : ℚ := -9.5
def flapVelocity : ℚ := 3.6
def speed : ℚ := 5.0
def gapSize : ℚ := 1.35
def spawnZ : ℚ := -22
def resetZ : ℚ := 2.0
def spacing : ℚ := 6.0
def pipePairs : Nat := 7
def playerRadius : ℚ := 0.18
def minY : ℚ := -1.2
def maxY : ℚ := 2.4
def shoulderOffset : ℚ := 0.25
def upThreshold : ℚ := 0.10
def downThreshold : ℚ := 0.05
def gestureWindow : ℚ := 0.65
def flapCooldown : ℚ := 0.22

end CFG

/-- The function `rand(min, max)` of lines 32-34, with the value `r` returned by
`Math.random()` made explicit. -/
def rand (min max r : ℚ) : ℚ := min + r * (max - min)

/-! ## Data model -/

/-- One entry of `pipes.current`. -/
structure Pipe where
  z : ℚ
  gapY : ℚ
  passed : Bool
  deriving DecidableEq, Repr

/-- The two values taken by the `state` field of a hand's gesture record. -/
inductive GState where
  | idle
  | up
  deriving DecidableEq, Repr

/-- One entry of `gesture.current` (lines 188-191). -/
structure Hand where
  state : GState
  t0 : ℚ
  lastFlap : ℚ
  deriving DecidableEq, Repr

/-- The keys of `gesture.current`. -/
inductive HandKey where
  | left
  | right
  deriving DecidableEq, Repr

/-- The object `gesture.current`. -/
structure Gesture where
  left : Hand
  right : Hand
  deriving DecidableEq, Repr

/-- Read `gesture.current[handKey]`. -/
def Gesture.get (g : Gesture) : HandKey → Hand
  | .left => g.left
  | .right => g.right

/-- Write `gesture.current[handKey]`. -/
def Gesture.set (g : Gesture) (k : HandKey) (h : Hand) : Gesture :=
  match k with
  | .left => { g with left := h }
  | .right => { g with right := h }

/-- The mutable state owned by the `Game` component. -/
structure Game where
  alive : Bool
  y : ℚ
  vy : ℚ
  score : Nat
  pipes : List Pipe
  gesture : Gesture
  deriving DecidableEq, Repr

/-- What one call of the `useFrame` callback reads from outside the component:
the clock, the frame time, the head height, the two grip heights, the mounted
meshes and the random draws. -/
structure Frame where
  now : ℚ
  dt : ℚ
  headY : ℚ
  leftY : Option ℚ
  rightY : Option ℚ
  mesh : Nat → Bool
  rnd : Nat → ℚ

/-! ## Session creation and `resetGame` (lines 141-170, 188-191) -/

/-- The pool built at lines 149-155: indices `i, i+1, ..., i+n-1`. -/
def newPipes (rnd : Nat → ℚ) : Nat → Nat → List Pipe
  | _, 0 => []
  | i, n + 1 =>
    { z := CFG.spawnZ - (i : ℚ) * CFG.spacing, gapY := rand (-0.2) 1.4 (rnd i), passed := false }
      :: newPipes rnd (i + 1) n

/-- The initial value of `gesture.current`. -/
def initGesture : Gesture :=
  { left := { state := .idle, t0 := 0, lastFlap := -999 },
    right := { state := .idle, t0 := 0, lastFlap := -999 } }

/-- The state a `Game` component is created with. -/
def initGame (rnd : Nat → ℚ) : Game :=
  { alive := true, y := 0.8, vy := 0.0, score := 0,
    pipes := newPipes rnd 0 CFG.pipePairs, gesture := initGesture }

/-- The `forEach` of lines 165-169, from index `i` on. -/
def resetPipes (rnd : Nat → ℚ) : Nat → List Pipe → List Pipe
  | _, [] => []
  | i, _ :: ps =>
    { z := CFG.spawnZ - (i : ℚ) * CFG.spacing, gapY := rand (-0.2) 1.4 (rnd i), passed := false }
      :: resetPipes rnd (i + 1) ps

/-- The callback `resetGame` (lines 157-170). -/
def resetGame (s : Game) (rnd : Nat → ℚ) : Game :=
  { s with alive := true, score := 0, y := 0.8, vy := 0.0,
           pipes := resetPipes rnd 0 s.pipes }

/-! ## `flap` (lines 172-175) -/

/-- The callback `flap`. -/
def flap (s : Game) : Game :=
  if s.alive = false then s else { s with vy := CFG.flapVelocity }

/-! ## `updateGesture` (lines 220-251) -/

/-- The inner function `step` for one hand record `g` and a finite height `y`.
The second component tells whether `flap()` was called. -/
def step (now shoulderY : ℚ) (g : Hand) (y : ℚ) : Hand × Bool :=
  if now - g.lastFlap < CFG.flapCooldown then (g, false)
  else
    match g.state with
    | .idle =>
      if y > shoulderY + CFG.upThreshold then ({ g with state := .up, t0 := now }, false)
      else (g, false)
    | .up =>
      if now - g.t0 > CFG.gestureWindow then ({ g with state := .idle }, false)
      else if y < shoulderY - CFG.downThreshold then
        ({ g with lastFlap := now, state := .idle }, true)
      else (g, false)

/-- One guarded call `if (Number.isFinite(y)) step(handKey, y)`.  The list
collects the hands on whose behalf `flap()` was called. -/
def stepKey (now shoulderY : ℚ) (k : HandKey) (y : Option ℚ)
    (acc : Gesture × List HandKey) : Gesture × List HandKey :=
  match y with
  | none => acc
  | some v =>
    let r := step now shoulderY (acc.1.get k) v
    (acc.1.set k r.1, if r.2 then acc.2 ++ [k] else acc.2)

/-- The function `updateGesture`: the new gesture records and the calls of
`flap()` it made, in order. -/
def updateGesture (now headY : ℚ) (leftY rightY : Option ℚ) (g : Gesture) :
    Gesture × List HandKey :=
  let shoulderY := headY - CFG.shoulderOffset
  stepKey now shoulderY .right rightY (stepKey now shoulderY .left leftY (g, []))

/-! ## The `useFrame` callback (lines 253-337) -/

/-- The body of the `for` loop (lines 304-334) for one pool entry whose mesh is
mounted: advance, score, recycle, collide. -/
def pipeBody (dt y r : ℚ) (p : Pipe) (alive : Bool) (score : Nat) : Pipe × Bool × Nat :=
  let p1 : Pipe := { p with z := p.z + CFG.speed * dt }
  let ps2 : Pipe × Nat :=
    if p1.passed = false ∧ p1.z > 0 then ({ p1 with passed := true }, score + 1) else (p1, score)
  let p3 : Pipe :=
    if ps2.1.z > CFG.resetZ then
      { z := CFG.spawnZ, gapY := rand (-0.2) 1.4 r, passed := false }
    else ps2.1
  let alive3 : Bool :=
    if p3.z > -0.35 ∧ p3.z < 0.35 then
      if y > p3.gapY + CFG.gapSize / 2 - CFG.playerRadius
          ∨ y < p3.gapY - CFG.gapSize / 2 + CFG.playerRadius then false
      else alive
    else alive
  (p3, alive3, ps2.2)

/-- The `for` loop of lines 298-335 from index `i` on, threading `aliveRef`
and the score. -/
def pipeLoop (dt y : ℚ) (mesh : Nat → Bool) (rnd : Nat → ℚ) :
    Nat → List Pipe → Bool → Nat → List Pipe × Bool × Nat
  | _, [], alive, score => ([], alive, score)
  | i, p :: ps, alive, score =>
    if mesh i = false then
      let r := pipeLoop dt y mesh rnd (i + 1) ps alive score
      (p :: r.1, r.2.1, r.2.2)
    else
      let b := pipeBody dt y (rnd i) p alive score
      let r := pipeLoop dt y mesh rnd (i + 1) ps b.2.1 b.2.2
      (b.1 :: r.1, r.2.1, r.2.2)

/-- The callback passed to `useFrame`: early return when dead, integration,
bounds check, `updateGesture`, then the loop over the pool.  The calls of
`flap()` made inside `updateGesture` are applied right after it; `flap` reads
only `aliveRef` and writes only `vyRef`, neither of which `step` touches, so the
order among them is immaterial. -/
def useFrame (s : Game) (f : Frame) : Game :=
  if s.alive = false then s
  else
    let vy1 := s.vy + CFG.gravity * f.dt
    let y1 := s.y + vy1 * f.dt
    let alive1 : Bool := if y1 < CFG.minY ∨ y1 > CFG.maxY then false else s.alive
    let s1 : Game := { s with vy := vy1, y := y1, alive := alive1 }
    let u := updateGesture f.now f.headY f.leftY f.rightY s1.gesture
    let s2 : Game := u.2.foldl (fun t _ => flap t) { s1 with gesture := u.1 }
    let r := pipeLoop f.dt s2.y f.mesh f.rnd 0 s2.pipes s2.alive s2.score
    { s2 with pipes := r.1, alive := r.2.1, score := r.2.2 }

/-- A sequence of frames, one `useFrame` call each. -/
def run (s : Game) (fs : List Frame) : Game := fs.foldl useFrame s

/-! ## Observations used in the statements -/

/-- The height reached by the integration step of a frame. -/
def nextY (s : Game) (f : Frame) : ℚ := s.y + (s.vy + CFG.gravity * f.dt) * f.dt

/-- The value of `aliveRef` after the bounds check of a frame. -/
def boundsAlive (s : Game) (f : Frame) : Bool :=
  if nextY s f < CFG.minY ∨ nextY s f > CFG.maxY then false else s.alive

/-- The pool entry left by the loop body (it depends on neither the height nor
the threaded flags). -/
def pipeNext (dt r : ℚ) (p : Pipe) : Pipe := (pipeBody dt 0 r p true 0).1

/-- The test of line 308 on the advanced position. -/
def crossing (dt : ℚ) (p : Pipe) : Prop := p.passed = false ∧ p.z + CFG.speed * dt > 0

instance (dt : ℚ) (p : Pipe) : Decidable (crossing dt p) := by
  unfold crossing; infer_instance

/-- The test of line 314 on the advanced position. -/
def recycling (dt : ℚ) (p : Pipe) : Prop := p.z + CFG.speed * dt > CFG.resetZ

instance (dt : ℚ) (p : Pipe) : Decidable (recycling dt p) := by
  unfold recycling; infer_instance

/-- The collision test of lines 324-330 for height `y` and pool entry `q`. -/
def hits (y : ℚ) (q : Pipe) : Prop :=
  (q.z > -0.35 ∧ q.z < 0.35)
    ∧ (y > q.gapY + CFG.gapSize / 2 - CFG.playerRadius
        ∨ y < q.gapY - CFG.gapSize / 2 + CFG.playerRadius)

instance (y : ℚ) (q : Pipe) : Decidable (hits y q) := by
  unfold hits; infer_instance

/-- The number of pool entries, from index `i` on, that pass the test of line
308 in one run of the loop. -/
def crossings (dt : ℚ) (mesh : Nat → Bool) : Nat → List Pipe → Nat
  | _, [] => 0
  | i, p :: ps =>
    (if mesh i = true ∧ crossing dt p then 1 else 0) + crossings dt mesh (i + 1) ps

/-- In the frame `f` taken in state `s` the loop reaches pool index `i`: the
frame does not return early and the mesh of `i` is mounted. -/
def visits (s : Game) (f : Frame) (i : Nat) : Prop := s.alive = true ∧ f.mesh i = true

instance (s : Game) (f : Frame) (i : Nat) : Decidable (visits s f i) := by
  unfold visits; infer_instance

/-- The frame `f` taken in state `s` increments the score on behalf of pool
index `i` (line 310 runs for `i`). -/
def scoresAt (s : Game) (f : Frame) (i : Nat) : Prop :=
  visits s f i ∧ ∃ p, s.pipes[i]? = some p ∧ crossing f.dt p

instance (s : Game) (f : Frame) (i : Nat) : Decidable (scoresAt s f i) := by
  unfold scoresAt
  cases h : s.pipes[i]? with
  | none => exact isFalse (by simp)
  | some p =>
    by_cases hc : crossing f.dt p
    · by_cases hv : visits s f i
      · exact isTrue ⟨hv, p, rfl, hc⟩
      · exact isFalse (fun hh => hv hh.1)
    · exact isFalse (by
        rintro ⟨_, q, hq, hcq⟩
        cases hq
        exact hc hcq)

/-- The frame `f` taken in state `s` recycles pool index `i` (lines 315-317
run for `i`). -/
def recyclesAt (s : Game) (f : Frame) (i : Nat) : Prop :=
  visits s f i ∧ ∃ p, s.pipes[i]? = some p ∧ recycling f.dt p

instance (s : Game) (f : Frame) (i : Nat) : Decidable (recyclesAt s f i) := by
  unfold recyclesAt
  cases h : s.pipes[i]? with
  | none => exact isFalse (by simp)
  | some p =>
    by_cases hc : recycling f.dt p
    · by_cases hv : visits s f i
      · exact isTrue ⟨hv, p, rfl, hc⟩
      · exact isFalse (fun hh => hv hh.1)
    · exact isFalse (by
        rintro ⟨_, q, hq, hcq⟩
        cases hq
        exact hc hcq)

/-- The number of frames of the sequence `fs`, started in state `s`, that
increment the score on behalf of pool index `i`. -/
def scoreTicks (i : Nat) : Game → List Frame → Nat
  | _, [] => 0
  | s, f :: fs => (if scoresAt s f i then 1 else 0) + scoreTicks i (useFrame s f) fs

/-- The number of frames of the sequence `fs`, started in state `s`, that
recycle pool index `i`. -/
def recycleTicks (i : Nat) : Game → List Frame → Nat
  | _, [] => 0
  | s, f :: fs => (if recyclesAt s f i then 1 else 0) + recycleTicks i (useFrame s f) fs

/-- What one call of `updateGesture` reads: the clock, the head height and the
two grip heights. -/
structure Sample where
  now : ℚ
  headY : ℚ
  leftY : Option ℚ
  rightY : Option ℚ

/-- The local `shoulderY` of `updateGesture` for a sample. -/
def Sample.shoulderY (m : Sample) : ℚ := m.headY - CFG.shoulderOffset

/-- A frame with no tracked hand, all meshes mounted and every draw `0.5`. -/
def quietFrame (dt : ℚ) : Frame :=
  { now := 0, dt := dt, headY := 1.6, leftY := none, rightY := none,
    mesh := fun _ => true, rnd := fun _ => 0.5 }

/-- A fresh session whose draws are all `0.5`. -/
def freshGame : Game := initGame (fun _ => 0.5)

/-- A live player with one gate just before the plane `z = 0`. -/
def crossGame : Game :=
  { alive := true, y := 0.8, vy := 0, score := 0,
    pipes := [{ z := -0.05, gapY := 0.5, passed := false }], gesture := initGesture }

/-- A finished session: dead, with a score and a pool of seven passed gates. -/
def deadGame : Game :=
  { alive := false, y := -1.5, vy := -3, score := 4,
    pipes := List.replicate 7 { z := 1, gapY := 0.3, passed := true },
    gesture := { left := { state := .up, t0 := 3, lastFlap := 2 },
                 right := { state := .idle, t0 := 0, lastFlap := -999 } } }

/-- Frame number `n` of a flight at 20 frames per second: all meshes mounted,
the left hand raised in the frames `n ≡ 3 (mod 14)` and lowered in the next
one, every recycled gate drawing `0` (gap centre `-0.2`). -/
def flightFrame (n : Nat) : Frame :=
  { now := (n : ℚ) / 20, dt := 0.05, headY := 1.6,
    leftY := some (if n % 14 = 3 then 2 else if n % 14 = 4 then 1 else 1.4),
    rightY := none, mesh := fun _ => true, rnd := fun _ => 0 }

/-- The first `n` frames of the flight. -/
def flight (n : Nat) : List Frame := (List.range n).map (fun j => flightFrame (j + 1))

/-- A fresh session whose draws are all `0.75` (gap centres `1.0`). -/
def highGame : Game := initGame (fun _ => 0.75)

/-! ## Basic facts about `flap` and the frame callback -/

theorem flap_y (s : Game) : (flap s).y = s.y := by
  unfold flap; split <;> rfl

theorem flap_alive (s : Game) : (flap s).alive = s.alive := by
  unfold flap; split <;> rfl

theorem flap_score (s : Game) : (flap s).score = s.score := by
  unfold flap; split <;> rfl

theorem flap_pipes (s : Game) : (flap s).pipes = s.pipes := by
  unfold flap; split <;> rfl

theorem flap_gesture (s : Game) : (flap s).gesture = s.gesture := by
  unfold flap; split <;> rfl

theorem flaps_y (l : List HandKey) (s : Game) :
    (l.foldl (fun t _ => flap t) s).y = s.y := by
  induction l generalizing s with
  | nil => rfl
  | cons _ l ih => simp only [List.foldl_cons, ih, flap_y]

theorem flaps_alive (l : List HandKey) (s : Game) :
    (l.foldl (fun t _ => flap t) s).alive = s.alive := by
  induction l generalizing s with
  | nil => rfl
  | cons _ l ih => simp only [List.foldl_cons, ih, flap_alive]

theorem flaps_score (l : List HandKey) (s : Game) :
    (l.foldl (fun t _ => flap t) s).score = s.score := by
  induction l generalizing s with
  | nil => rfl
  | cons _ l ih => simp only [List.foldl_cons, ih, flap_score]

theorem flaps_pipes (l : List HandKey) (s : Game) :
    (l.foldl (fun t _ => flap t) s).pipes = s.pipes := by
  induction l generalizing s with
  | nil => rfl
  | cons _ l ih => simp only [List.foldl_cons, ih, flap_pipes]

theorem flaps_gesture (l : List HandKey) (s : Game) :
    (l.foldl (fun t _ => flap t) s).gesture = s.gesture := by
  induction l generalizing s with
  | nil => rfl
  | cons _ l ih => simp only [List.foldl_cons, ih, flap_gesture]

theorem useFrame_dead (s : Game) (f : Frame) (h : s.alive = false) : useFrame s f = s := by
  unfold useFrame; rw [if_pos h]

theorem useFrame_y (s : Game) (f : Frame) (h : s.alive = true) :
    (useFrame s f).y = nextY s f := by
  unfold useFrame
  rw [if_neg (by simp [h])]
  simp only [flaps_y, nextY]

theorem useFrame_loop (s : Game) (f : Frame) (h : s.alive = true) :
    (useFrame s f).pipes
        = (pipeLoop f.dt (nextY s f) f.mesh f.rnd 0 s.pipes (boundsAlive s f) s.score).1
      ∧ (useFrame s f).alive
        = (pipeLoop f.dt (nextY s f) f.mesh f.rnd 0 s.pipes (boundsAlive s f) s.score).2.1
      ∧ (useFrame s f).score
        = (pipeLoop f.dt (nextY s f) f.mesh f.rnd 0 s.pipes (boundsAlive s f) s.score).2.2 := by
  unfold useFrame
  rw [if_neg (by simp [h])]
  refine ⟨?_, ?_, ?_⟩ <;>
    simp only [flaps_y, flaps_alive, flaps_score, flaps_pipes, nextY, boundsAlive]

theorem useFrame_gesture (s : Game) (f : Frame) (h : s.alive = true) :
    (useFrame s f).gesture = (updateGesture f.now f.headY f.leftY f.rightY s.gesture).1 := by
  unfold useFrame
  rw [if_neg (by simp [h])]
  simp only [flaps_gesture]

/-! ## The loop body and the loop -/

theorem resetZ_pos : (0 : ℚ) < CFG.resetZ := by norm_num [CFG.resetZ]

theorem pipeBody_pipe (dt y r : ℚ) (p : Pipe) (a : Bool) (sc : Nat) :
    (pipeBody dt y r p a sc).1 = pipeNext dt r p := by
  unfold pipeNext pipeBody
  dsimp only
  by_cases h1 : p.passed = false ∧ p.z + CFG.speed * dt > 0
  · repeat rw [if_pos h1]
  · repeat rw [if_neg h1]

theorem pipeNext_recycled (dt r : ℚ) (p : Pipe) (h : recycling dt p) :
    pipeNext dt r p = { z := CFG.spawnZ, gapY := rand (-0.2) 1.4 r, passed := false } := by
  unfold recycling at h
  unfold pipeNext pipeBody
  dsimp only
  by_cases h1 : p.passed = false ∧ p.z + CFG.speed * dt > 0
  · repeat rw [if_pos h1]
    exact if_pos h
  · repeat rw [if_neg h1]
    exact if_pos h

theorem pipeNext_kept (dt r : ℚ) (p : Pipe) (h : ¬ recycling dt p) :
    pipeNext dt r p
      = { z := p.z + CFG.speed * dt, gapY := p.gapY,
          passed := if crossing dt p then true else p.passed } := by
  unfold recycling at h
  unfold pipeNext pipeBody crossing
  dsimp only
  by_cases h1 : p.passed = false ∧ p.z + CFG.speed * dt > 0
  · repeat rw [if_pos h1]
    exact if_neg h
  · repeat rw [if_neg h1]
    exact if_neg h

theorem pipeBody_score (dt y r : ℚ) (p : Pipe) (a : Bool) (sc : Nat) :
    (pipeBody dt y r p a sc).2.2 = sc + (if crossing dt p then 1 else 0) := by
  unfold pipeBody crossing
  dsimp only
  by_cases h1 : p.passed = false ∧ p.z + CFG.speed * dt > 0
  · repeat rw [if_pos h1]
  · repeat rw [if_neg h1]
    rfl

theorem pipeLoop_length (dt y : ℚ) (mesh : Nat → Bool) (rnd : Nat → ℚ) (ps : List Pipe) :
    ∀ (i : Nat) (a : Bool) (sc : Nat), (pipeLoop dt y mesh rnd i ps a sc).1.length = ps.length := by
  induction ps with
  | nil => intro i a sc; rfl
  | cons p ps ih =>
    intro i a sc
    unfold pipeLoop
    by_cases hm : mesh i = false
    · rw [if_pos hm]; simp only [List.length_cons, ih]
    · rw [if_neg hm]; simp only [List.length_cons, ih]

theorem pipeLoop_getElem? (dt y : ℚ) (mesh : Nat → Bool) (rnd : Nat → ℚ) (ps : List Pipe) :
    ∀ (i : Nat) (a : Bool) (sc : Nat) (j : Nat),
      (pipeLoop dt y mesh rnd i ps a sc).1[j]?
        = (ps[j]?).map
            (fun p => if mesh (i + j) = false then p else pipeNext dt (rnd (i + j)) p) := by
  induction ps with
  | nil => intro i a sc j; simp [pipeLoop]
  | cons p ps ih =>
    intro i a sc j
    unfold pipeLoop
    by_cases hm : mesh i = false
    · rw [if_pos hm]
      cases j with
      | zero => simp [hm]
      | succ j =>
        simp only [List.getElem?_cons_succ, ih]
        rw [show i + 1 + j = i + (j + 1) by omega]
    · rw [if_neg hm]
      cases j with
      | zero => simp [hm, pipeBody_pipe]
      | succ j =>
        simp only [List.getElem?_cons_succ, ih]
        rw [show i + 1 + j = i + (j + 1) by omega]

theorem pipeLoop_score (dt y : ℚ) (mesh : Nat → Bool) (rnd : Nat → ℚ) (ps : List Pipe) :
    ∀ (i : Nat) (a : Bool) (sc : Nat),
      (pipeLoop dt y mesh rnd i ps a sc).2.2 = sc + crossings dt mesh i ps := by
  induction ps with
  | nil => intro i a sc; rfl
  | cons p ps ih =>
    intro i a sc
    unfold pipeLoop crossings
    by_cases hm : mesh i = false
    · rw [if_pos hm]
      have hm' : ¬ (mesh i = true ∧ crossing dt p) := by simp [hm]
      rw [if_neg hm']
      simp only [ih]; omega
    · rw [if_neg hm]
      have ht : mesh i = true := by simpa using hm
      simp only [ih, pipeBody_score, ht, true_and]; omega

theorem useFrame_pipe (s : Game) (f : Frame) (i : Nat) (h : s.alive = true) :
    (useFrame s f).pipes[i]?
      = (s.pipes[i]?).map (fun p => if f.mesh i = false then p else pipeNext f.dt (f.rnd i) p) := by
  rw [(useFrame_loop s f h).1, pipeLoop_getElem?, Nat.zero_add]

theorem useFrame_pipes_length (s : Game) (f : Frame) :
    (useFrame s f).pipes.length = s.pipes.length := by
  cases h : s.alive with
  | false => rw [useFrame_dead s f h]
  | true => rw [(useFrame_loop s f h).1, pipeLoop_length]

theorem useFrame_pipe_visit (s : Game) (f : Frame) (i : Nat) (p : Pipe)
    (hp : s.pipes[i]? = some p) :
    (useFrame s f).pipes[i]? = some (if visits s f i then pipeNext f.dt (f.rnd i) p else p) := by
  unfold visits
  by_cases h : s.alive = true
  · rw [useFrame_pipe s f i h, hp]
    by_cases hm : f.mesh i = true
    · simp [h, hm]
    · have hm' : f.mesh i = false := by simpa using hm
      simp [h, hm']
  · have h' : s.alive = false := by simpa using h
    rw [useFrame_dead s f h', hp]
    simp [h']

theorem scoresAt_iff (s : Game) (f : Frame) (i : Nat) (p : Pipe) (hp : s.pipes[i]? = some p) :
    scoresAt s f i ↔ visits s f i ∧ crossing f.dt p := by
  unfold scoresAt
  constructor
  · rintro ⟨hv, q, hq, hc⟩
    rw [hp] at hq; cases hq
    exact ⟨hv, hc⟩
  · rintro ⟨hv, hc⟩
    exact ⟨hv, p, hp, hc⟩

theorem recyclesAt_iff (s : Game) (f : Frame) (i : Nat) (p : Pipe) (hp : s.pipes[i]? = some p) :
    recyclesAt s f i ↔ visits s f i ∧ recycling f.dt p := by
  unfold recyclesAt
  constructor
  · rintro ⟨hv, q, hq, hc⟩
    rw [hp] at hq; cases hq
    exact ⟨hv, hc⟩
  · rintro ⟨hv, hc⟩
    exact ⟨hv, p, hp, hc⟩

theorem run_cons (s : Game) (f : Frame) (fs : List Frame) :
    run s (f :: fs) = run (useFrame s f) fs := rfl

theorem pass_scoreTicks (i : Nat) (fl : Frame) (fs : List Frame) :
    ∀ (s : Game) (p : Pipe), s.pipes[i]? = some p → recycleTicks i s fs = 0 →
      recyclesAt (run s fs) fl i →
      scoreTicks i s (fs ++ [fl]) = if p.passed = true then 0 else 1 := by
  induction fs with
  | nil =>
    intro s p hp _ hrec
    have hr := (recyclesAt_iff s fl i p hp).mp hrec
    simp only [List.nil_append, scoreTicks, Nat.add_zero]
    have hz : p.z + CFG.speed * fl.dt > 0 := lt_trans resetZ_pos hr.2
    cases hpass : p.passed with
    | true =>
      have : ¬ scoresAt s fl i := by
        rw [scoresAt_iff s fl i p hp]
        rintro ⟨_, hc, _⟩
        rw [hpass] at hc; cases hc
      rw [if_neg this]; rfl
    | false =>
      have : scoresAt s fl i := (scoresAt_iff s fl i p hp).mpr ⟨hr.1, hpass, hz⟩
      rw [if_pos this]; rfl
  | cons f fs ih =>
    intro s p hp hno hrec
    simp only [recycleTicks] at hno
    have hno1 : ¬ recyclesAt s f i := by
      intro hcon; rw [if_pos hcon] at hno; omega
    have hno2 : recycleTicks i (useFrame s f) fs = 0 := by omega
    rw [run_cons] at hrec
    have hnext := useFrame_pipe_visit s f i p hp
    have hih := ih (useFrame s f) _ hnext hno2 hrec
    change (if scoresAt s f i then 1 else 0) + scoreTicks i (useFrame s f) (fs ++ [fl]) = _
    rw [hih]
    by_cases hv : visits s f i
    · have hnr : ¬ recycling f.dt p := fun hcon =>
        hno1 ((recyclesAt_iff s f i p hp).mpr ⟨hv, hcon⟩)
      rw [if_pos hv, pipeNext_kept f.dt (f.rnd i) p hnr]
      by_cases hc : crossing f.dt p
      · have hsc : scoresAt s f i := (scoresAt_iff s f i p hp).mpr ⟨hv, hc⟩
        have hpf : p.passed = false := hc.1
        simp [hsc, hc, hpf]
      · have hsc : ¬ scoresAt s f i := fun hcon => hc ((scoresAt_iff s f i p hp).mp hcon).2
        simp [hsc, hc]
    · have hsc : ¬ scoresAt s f i := fun hcon => hv ((scoresAt_iff s f i p hp).mp hcon).1
      simp [hsc, hv]

theorem crossings_countP (dt : ℚ) (mesh : Nat → Bool) (ps : List Pipe) :
    ∀ i : Nat, crossings dt mesh i ps
      = (List.range ps.length).countP
          (fun j => decide (mesh (i + j) = true ∧ ∃ p, ps[j]? = some p ∧ crossing dt p)) := by
  induction ps with
  | nil => intro i; rfl
  | cons p ps ih =>
    intro i
    unfold crossings
    rw [ih (i + 1), List.length_cons, List.range_succ_eq_map, List.countP_cons, List.countP_map]
    have hfun : ((fun j => decide (mesh (i + j) = true ∧ ∃ q, (p :: ps)[j]? = some q ∧ crossing dt q))
          ∘ Nat.succ)
        = (fun j => decide (mesh (i + 1 + j) = true ∧ ∃ q, ps[j]? = some q ∧ crossing dt q)) := by
      funext j
      simp only [Function.comp, Nat.succ_eq_add_one, List.getElem?_cons_succ]
      rw [show i + (j + 1) = i + 1 + j by omega]
    rw [hfun]
    by_cases hc : mesh i = true ∧ crossing dt p
    · simp [hc.1, hc.2]; omega
    · have : ¬ (mesh i = true ∧ crossing dt p) := hc
      simp only [this, if_false]
      simp only [Nat.add_zero, List.getElem?_cons_zero, Option.some.injEq, exists_eq_left', this,
        decide_False, Bool.false_eq_true, if_false]
      omega

theorem useFrame_score (s : Game) (f : Frame) :
    (useFrame s f).score
      = s.score + (List.range s.pipes.length).countP (fun j => decide (scoresAt s f j)) := by
  cases h : s.alive with
  | false =>
    rw [useFrame_dead s f h]
    have : (List.range s.pipes.length).countP (fun j => decide (scoresAt s f j)) = 0 := by
      rw [List.countP_eq_zero]
      intro j _
      simp [scoresAt, visits, h]
    rw [this]; rfl
  | true =>
    rw [(useFrame_loop s f h).2.2, pipeLoop_score, crossings_countP]
    congr 2
    funext j
    simp [scoresAt, visits, h]

theorem passed_cleared_only_by_recycle (s : Game) (f : Frame) (j : Nat) (q q' : Pipe)
    (hq : s.pipes[j]? = some q) (hq' : (useFrame s f).pipes[j]? = some q')
    (ht : q.passed = true) (hf : q'.passed = false) : recyclesAt s f j := by
  rw [useFrame_pipe_visit s f j q hq] at hq'
  by_cases hv : visits s f j
  · by_cases hr : recycling f.dt q
    · exact (recyclesAt_iff s f j q hq).mpr ⟨hv, hr⟩
    · rw [if_pos hv, pipeNext_kept f.dt (f.rnd j) q hr] at hq'
      have : q' = _ := (Option.some.inj hq').symm
      rw [this] at hf
      by_cases hc : crossing f.dt q
      · simp [hc] at hf
      · simp [hc, ht] at hf
  · rw [if_neg hv] at hq'
    have : q = q' := Option.some.inj hq'
    rw [← this, ht] at hf; cases hf

theorem recycled_is_fresh (s : Game) (f : Frame) (j : Nat) (q : Pipe)
    (hr : recyclesAt s f j) (hq : (useFrame s f).pipes[j]? = some q) :
    q.passed = false ∧ q.z = CFG.spawnZ := by
  obtain ⟨hv, p, hp, hrec⟩ := hr
  rw [useFrame_pipe_visit s f j p hp, if_pos hv, pipeNext_recycled f.dt (f.rnd j) p hrec] at hq
  have : q = _ := (Option.some.inj hq).symm
  rw [this]
  exact ⟨rfl, rfl⟩

theorem resetPipes_getElem? (rnd : Nat → ℚ) (ps : List Pipe) :
    ∀ i j : Nat, (resetPipes rnd i ps)[j]?
      = (ps[j]?).map (fun _ =>
          ({ z := CFG.spawnZ - ((i + j : Nat) : ℚ) * CFG.spacing,
             gapY := rand (-0.2) 1.4 (rnd (i + j)), passed := false } : Pipe)) := by
  induction ps with
  | nil => intro i j; simp [resetPipes]
  | cons p ps ih =>
    intro i j
    unfold resetPipes
    cases j with
    | zero => simp
    | succ j =>
      simp only [List.getElem?_cons_succ, ih]
      rw [show i + 1 + j = i + (j + 1) by omega]

theorem newPipes_eq_resetPipes (rnd : Nat → ℚ) (ps : List Pipe) :
    ∀ i : Nat, resetPipes rnd i ps = newPipes rnd i ps.length := by
  induction ps with
  | nil => intro i; rfl
  | cons p ps ih => intro i; simp only [resetPipes, newPipes, List.length_cons, ih]

theorem resetPipes_length (rnd : Nat → ℚ) (ps : List Pipe) :
    ∀ i : Nat, (resetPipes rnd i ps).length = ps.length := by
  induction ps with
  | nil => intro i; rfl
  | cons p ps ih => intro i; simp only [resetPipes, List.length_cons, ih]

/-! ## Claims about the frame callback, `flap` and `resetGame` -/

/-- C2. One score increment per obstacle and pass.  Take a pool entry `i` that
is fresh (`passed = false`, as after creation, reset or recycle), a sequence of
frames `fs` none of which recycles `i`, and a further frame `fl` that recycles
it.  Then exactly one frame of `fs ++ [fl]` increments the score on behalf of
`i`.  Moreover every frame raises the score by the number of pool entries it
scores for, `passed` turns from true to false only in a frame that recycles
the entry, and an entry is fresh after creation, after `resetGame` and after
its recycle. -/
theorem C2_one_score_per_pass (s0 : Game) (fs : List Frame) (fl : Frame) (i : Nat) (p : Pipe)
    (hp : s0.pipes[i]? = some p) (hfresh : p.passed = false)
    (hno : recycleTicks i s0 fs = 0) (hrec : recyclesAt (run s0 fs) fl i) :
    scoreTicks i s0 (fs ++ [fl]) = 1
    ∧ (∀ (s : Game) (f : Frame), (useFrame s f).score
        = s.score + (List.range s.pipes.length).countP (fun j => decide (scoresAt s f j)))
    ∧ (∀ (s : Game) (f : Frame) (j : Nat) (q q' : Pipe), s.pipes[j]? = some q →
        (useFrame s f).pipes[j]? = some q' → q.passed = true → q'.passed = false →
        recyclesAt s f j)
    ∧ (∀ (s : Game) (f : Frame) (j : Nat) (q : Pipe), recyclesAt s f j →
        (useFrame s f).pipes[j]? = some q → q.passed = false)
    ∧ (∀ (s : Game) (rnd : Nat → ℚ) (j : Nat) (q : Pipe),
        ((resetGame s rnd).pipes[j]? = some q ∨ (initGame rnd).pipes[j]? = some q) →
        q.passed = false) := by
  refine ⟨?_, useFrame_score, passed_cleared_only_by_recycle, ?_, ?_⟩
  · rw [pass_scoreTicks i fl fs s0 p hp hno hrec, hfresh]; rfl
  · intro s f j q hr hq
    exact (recycled_is_fresh s f j q hr hq).1
  · intro s rnd j q hq
    have key : ∀ ps : List Pipe, (resetPipes rnd 0 ps)[j]? = some q → q.passed = false := by
      intro ps hps
      rw [resetPipes_getElem?] at hps
      cases hj : ps[j]? with
      | none => rw [hj] at hps; cases hps
      | some r =>
        rw [hj] at hps
        have : q = _ := (Option.some.inj hps).symm
        rw [this]
    rcases hq with hq | hq
    · exact key s.pipes hq
    · apply key (List.replicate CFG.pipePairs { z := 0, gapY := 0, passed := false })
      rw [newPipes_eq_resetPipes, List.length_replicate]
      exact hq

/-- C2 at the scenario of the specification: a gate with `passed = false` that
moves from `-0.05` to `0.05` in one frame raises the score by exactly one and
ends passed; the next frame carries it beyond `resetZ`, and the pass counts
one increment. -/
theorem C2_one_score_per_pass_witness :
    crossGame.pipes[0]? = some { z := -0.05, gapY := 0.5, passed := false }
    ∧ (useFrame crossGame (quietFrame 0.02)).score = crossGame.score + 1
    ∧ (useFrame crossGame (quietFrame 0.02)).pipes = [{ z := 0.05, gapY := 0.5, passed := true }]
    ∧ recycleTicks 0 crossGame [quietFrame 0.02] = 0
    ∧ recyclesAt (run crossGame [quietFrame 0.02]) (quietFrame 0.5) 0
    ∧ scoreTicks 0 crossGame ([quietFrame 0.02] ++ [quietFrame 0.5]) = 1 :=
  ⟨rfl, by decide!, by decide!, by decide!, by decide!,
    (C2_one_score_per_pass crossGame [quietFrame 0.02] (quietFrame 0.5) 0
      { z := -0.05, gapY := 0.5, passed := false } rfl rfl (by decide!) (by decide!)).1⟩

/-- C7. Frozen-state invariant: with `alive = false`, a frame (any clock, frame
time and samples) returns the state it was given, so the height, velocity,
alive flag, score, every pool entry and both gesture records are unchanged; and
`flap` returns the state it was given. -/
theorem C7_frozen_state (s : Game) (f : Frame) (h : s.alive = false) :
    useFrame s f = s ∧ flap s = s := by
  refine ⟨useFrame_dead s f h, ?_⟩
  unfold flap
  rw [if_pos h]

/-- C7 at a finished session and a frame in which the left hand is tracked. -/
theorem C7_frozen_state_witness :
    deadGame.alive = false
    ∧ useFrame deadGame { quietFrame 0.1 with now := 7, leftY := some 2.0 } = deadGame
    ∧ flap deadGame = deadGame :=
  ⟨rfl, C7_frozen_state deadGame { quietFrame 0.1 with now := 7, leftY := some 2.0 } rfl⟩

/-- C6, as the code has it: a `flap` applied to a live player before a frame
makes the height after the frame `y + (flapVelocity + gravity * dt) * dt`,
whatever the velocity held before the flap: the gravity of the frame is added to
the flap velocity before the player is moved. -/
theorem C6_flap_then_frame (s : Game) (f : Frame) (h : s.alive = true) :
    (useFrame (flap s) f).y = s.y + (CFG.flapVelocity + CFG.gravity * f.dt) * f.dt := by
  have ha : (flap s).alive = true := by rw [flap_alive, h]
  rw [useFrame_y (flap s) f ha]
  unfold nextY flap
  rw [if_neg (by simp [h])]

/-- C6 at a fresh session and `dt = 0.1`: the height goes from `0.8` to
`1.065`. -/
theorem C6_flap_then_frame_witness :
    freshGame.alive = true ∧ (useFrame (flap freshGame) (quietFrame 0.1)).y = 1.065 := by
  refine ⟨rfl, ?_⟩
  rw [C6_flap_then_frame freshGame (quietFrame 0.1) rfl]
  norm_num [freshGame, initGame, quietFrame, CFG.gravity, CFG.flapVelocity]

/-- C6 as stated fails: in a fresh session, a flap followed by a frame of
`dt = 0.1` leaves the player at `1.065`, not at `0.8 + 3.6 * 0.1 = 1.16`. -/
theorem C6_displacement_counterexample :
    freshGame.alive = true
    ∧ (useFrame (flap freshGame) (quietFrame 0.1)).y = 1.065
    ∧ freshGame.y + CFG.flapVelocity * (quietFrame 0.1).dt = 1.16
    ∧ (useFrame (flap freshGame) (quietFrame 0.1)).y
        ≠ freshGame.y + CFG.flapVelocity * (quietFrame 0.1).dt := by
  refine ⟨rfl, by decide!, by decide!, by decide!⟩

/-- C8. `resetGame` reproduces the initial session: from any state with the
pool of `pipePairs` entries, the result is alive with score `0`, height `0.8`
and velocity `0`; the pool keeps its seven entries, entry `i` is at
`spawnZ - i * spacing = -22 - 6 * i` with `passed = false` and gap centre
`rand(-0.2, 1.4)` of its draw, within `[-0.2, 1.4)` when the draw is in
`[0, 1)`; and these are the values of a newly created session with the same
draws. -/
theorem C8_reset_initial_session (s : Game) (rnd : Nat → ℚ)
    (hlen : s.pipes.length = CFG.pipePairs) :
    (resetGame s rnd).alive = true ∧ (resetGame s rnd).score = 0
    ∧ (resetGame s rnd).y = 0.8 ∧ (resetGame s rnd).vy = 0
    ∧ (resetGame s rnd).pipes.length = 7
    ∧ (∀ i : Nat, i < 7 → ∃ q : Pipe, (resetGame s rnd).pipes[i]? = some q
        ∧ q.z = CFG.spawnZ - (i : ℚ) * CFG.spacing ∧ q.z = -22 - 6 * (i : ℚ)
        ∧ q.passed = false ∧ q.gapY = rand (-0.2) 1.4 (rnd i)
        ∧ (0 ≤ rnd i → rnd i < 1 → -0.2 ≤ q.gapY ∧ q.gapY < 1.4))
    ∧ (resetGame s rnd).alive = (initGame rnd).alive
    ∧ (resetGame s rnd).score = (initGame rnd).score
    ∧ (resetGame s rnd).y = (initGame rnd).y ∧ (resetGame s rnd).vy = (initGame rnd).vy
    ∧ (resetGame s rnd).pipes = (initGame rnd).pipes := by
  have hl : (resetGame s rnd).pipes.length = 7 := by
    show (resetPipes rnd 0 s.pipes).length = 7
    rw [resetPipes_length, hlen]; rfl
  refine ⟨rfl, rfl, rfl, by norm_num [resetGame], hl, ?_, rfl, rfl, rfl, rfl, ?_⟩
  · intro i hi
    have hi' : i < s.pipes.length := by rw [hlen]; exact hi
    refine ⟨{ z := CFG.spawnZ - (i : ℚ) * CFG.spacing,
              gapY := rand (-0.2) 1.4 (rnd i), passed := false }, ?_, rfl, ?_, rfl, rfl, ?_⟩
    · show (resetPipes rnd 0 s.pipes)[i]? = _
      rw [resetPipes_getElem?, List.getElem?_eq_getElem hi']
      simp
    · norm_num [CFG.spawnZ, CFG.spacing]; ring
    · intro h0 h1
      simp only [rand]
      constructor <;> nlinarith
  · show resetPipes rnd 0 s.pipes = newPipes rnd 0 CFG.pipePairs
    rw [newPipes_eq_resetPipes, hlen]

/-- C8 at a finished session with score `4`: after `resetGame` the state is the
fresh session. -/
theorem C8_reset_initial_session_witness :
    deadGame.pipes.length = CFG.pipePairs
    ∧ (resetGame deadGame (fun _ => 0.5)).pipes = freshGame.pipes
    ∧ (resetGame deadGame (fun _ => 0.5)).score = 0
    ∧ (resetGame deadGame (fun _ => 0.5)).alive = true :=
  ⟨rfl, (C8_reset_initial_session deadGame (fun _ => 0.5) rfl).2.2.2.2.2.2.2.2.2.2,
    (C8_reset_initial_session deadGame (fun _ => 0.5) rfl).2.1,
    (C8_reset_initial_session deadGame (fun _ => 0.5) rfl).1⟩

/-! ## The gesture recogniser, one hand at a time -/

theorem run_append (s : Game) (a b : List Frame) : run s (a ++ b) = run (run s a) b := by
  unfold run; rw [List.foldl_append]

theorem run_dead (fs : List Frame) : ∀ s : Game, s.alive = false → run s fs = s := by
  induction fs with
  | nil => intro s _; rfl
  | cons f fs ih =>
    intro s h
    rw [run_cons, useFrame_dead s f h]
    exact ih s h

theorem run_alive_of_append (s : Game) (a b : List Frame)
    (h : (run s (a ++ b)).alive = true) : (run s a).alive = true := by
  by_contra hcon
  have hd : (run s a).alive = false := by simpa using hcon
  rw [run_append, run_dead b _ hd, hd] at h
  cases h

theorem flight_add (n m : Nat) :
    flight (n + m) = flight n ++ (List.range m).map (fun j => flightFrame (n + j + 1)) := by
  unfold flight
  rw [List.range_add, List.map_append, List.map_map]
  rfl

/-- C10 fails on the code.  A fresh session whose gates all have gap centre
`1.0` is flown for 184 frames of `dt = 0.05` with all meshes mounted; every
frame starts alive.  After frame 97 gate 0 has been recycled to `-22` while
gate 4 is at `-21.75`, so two distinct gates are `0.25` apart.  In frame 184
gates 0 and 4 are both inside the window `(-0.35, 0.35)`, at `-0.25` and `0`,
with gap centres `-0.2` and `1.0`; the player at height `1.185` is inside the
gap of gate 4 and is killed by gate 0. -/
theorem C10_gates_overlap :
    (∀ f ∈ flight 184, 0 < f.dt ∧ f.dt ≤ 0.1 ∧ ∀ i, f.mesh i = true)
    ∧ (∀ n, n ≤ 183 → (run highGame (flight n)).alive = true)
    ∧ (run highGame (flight 97)).pipes.map Pipe.z
        = [-22, -3.75, -9.75, -15.75, -21.75, -27.75, -33.75]
    ∧ (run highGame (flight 184)).pipes
        = [{ z := -0.25, gapY := -0.2, passed := false },
           { z := -6.25, gapY := -0.2, passed := false },
           { z := -12.25, gapY := -0.2, passed := false },
           { z := -18.25, gapY := -0.2, passed := false },
           { z := 0, gapY := 1, passed := false },
           { z := -6, gapY := 1, passed := false },
           { z := -12, gapY := 1, passed := false }]
    ∧ (run highGame (flight 184)).y = 1.185
    ∧ ¬ hits 1.185 { z := 0, gapY := 1, passed := false }
    ∧ hits 1.185 { z := -0.25, gapY := -0.2, passed := false }
    ∧ (run highGame (flight 184)).alive = false := by
  have h183 : (run highGame (flight 183)).alive = true := by decide!
  have h184 : run highGame (flight 184)
      = { alive := false, y := 1.185, vy := -2.1, score := 4,
          pipes := [{ z := -0.25, gapY := -0.2, passed := false },
                    { z := -6.25, gapY := -0.2, passed := false },
                    { z := -12.25, gapY := -0.2, passed := false },
                    { z := -18.25, gapY := -0.2, passed := false },
                    { z := 0, gapY := 1, passed := false },
                    { z := -6, gapY := 1, passed := false },
                    { z := -12, gapY := 1, passed := false }],
          gesture := { left := { state := .idle, t0 := 8.55, lastFlap := 8.6 },
                       right := { state := .idle, t0 := 0, lastFlap := -999 } } } := by decide!
  refine ⟨?_, ?_, by decide!, by rw [h184], by rw [h184], by decide!, by decide!, by rw [h184]⟩
  · intro f hf
    unfold flight at hf
    obtain ⟨j, _, rfl⟩ := List.mem_map.mp hf
    refine ⟨by norm_num [flightFrame], by norm_num [flightFrame], fun _ => rfl⟩
  · intro n hn
    have hm : 183 = n + (183 - n) := by omega
    rw [hm, flight_add] at h183
    exact run_alive_of_append _ _ _ h183

end FlappyVR
